import Mathlib

/-!
Shallow embedding of `save_registration_updated.js` (class `RegistrationStorage`).

JavaScript values that can flow through the module are modelled by `JVal`.
A JS object is modelled as its list of field assignments in order; reading a
property returns the value of the LAST assignment of that key (later spread
entries and literal entries overwrite earlier ones, as in JS object literals
and `JSON.parse`).  Numbers are modelled as rationals (`Date.now()` yields an
integer, `Date.now() + Math.random()` a non-integer); `NaN` and `-0` never
arise in the modelled code paths.  `undefined` is modelled as `Option.none`
at property-read sites.

The browser `localStorage` is used under the single key
`'all_registrations'`, so the store state is just the value under that key:
absent, the empty string (falsy), a string that fails `JSON.parse`, or a
string that parses to some `JVal` (writes always store `JSON.stringify` of a
value, and `JSON.parse ∘ JSON.stringify` is the identity on these values, so
the parsed value itself is stored).
-/

inductive JVal where
  | null : JVal
  | bool : Bool → JVal
  | num : Rat → JVal
  | str : String → JVal
  | arr : List JVal → JVal
  | obj : List (String × JVal) → JVal

/-- JS strict equality `===`.  On primitives it is value equality; on
objects/arrays it is reference identity, which a value model cannot hold and
which this module only ever exercises on `id` fields, always numbers
(`Date.now()`, `Date.now() + Math.random()`), so two structurally distinct
references never compare equal here. -/
def strictEq : JVal → JVal → Bool
  | .null, .null => true
  | .bool a, .bool b => a == b
  | .num a, .num b => a == b
  | .str a, .str b => a == b
  | _, _ => false

/-- `v === w` where the left side may be `undefined` (an absent property);
`undefined === w` is false for every proper value `w`. -/
def strictEqOpt (v : Option JVal) (w : JVal) : Bool :=
  match v with
  | some x => strictEq x w
  | none => false

/-- Reading property `k` from an object's assignment list: the value of the
last assignment of `k`, if any (JS: later assignments overwrite earlier). -/
def getLast (k : String) : List (String × JVal) → Option JVal
  | [] => none
  | (k2, v) :: rest =>
    match getLast k rest with
    | some w => some w
    | none => if k2 == k then some v else none

/-- JS property read `v[k]`.  Returns `none` for `undefined`.  (Reading a
property of `null` throws in JS; in the modelled code paths every such read
is either on an object or guarded, see the individual operations.) -/
def jGet (v : JVal) (k : String) : Option JVal :=
  match v with
  | .obj fs => getLast k fs
  | _ => none

/-- JS truthiness of a value. -/
def truthy : JVal → Bool
  | .null => false
  | .bool b => b
  | .num q => q != 0
  | .str s => s != ""
  | .arr _ => true
  | .obj _ => true

/-- JS truthiness of a possibly-`undefined` value. -/
def truthyOpt : Option JVal → Bool
  | none => false
  | some v => truthy v

/-- Field assignments contributed by spreading a value into an object
literal `{...v}`: objects contribute their fields, strings and arrays their
indexed elements, primitives nothing. -/
def spreadFields : JVal → List (String × JVal)
  | .obj fs => fs
  | .str s => (s.toList.enum).map (fun p => (toString p.1, JVal.str (String.singleton p.2)))
  | .arr xs => (xs.enum).map (fun p => (toString p.1, p.2))
  | _ => []

/-- The value stored in `localStorage` under the key `'all_registrations'`. -/
inductive Stored where
  | absent : Stored
  | emptyStr : Stored
  | corrupt : Stored
  | val : JVal → Stored

/-- `getAllRegistrations()`: `stored ? JSON.parse(stored) : []` inside
`try/catch` returning `[]`.  An absent or empty (falsy) stored string yields
`[]`; a string that fails to parse throws and the catch yields `[]`; a
string that parses yields the parsed value unchanged, whatever its shape. -/
def getAllRegistrations : Stored → JVal
  | .absent => .arr []
  | .emptyStr => .arr []
  | .corrupt => .arr []
  | .val v => v

/-- `localStorage.setItem(storageKey, JSON.stringify(v))`. -/
def setItem (v : JVal) : Stored := .val v

/-- JS `Array.prototype.find` (returns `undefined`, here `none`, on no match;
the source's trailing `|| null` maps `undefined` to `null`, also `none`). -/
def jsFind {α : Type} (p : α → Bool) : List α → Option α
  | [] => none
  | x :: xs => if p x then some x else jsFind p xs

/-- JS `Array.prototype.findIndex` (the source's `-1` result is `none`). -/
def jsFindIndex {α : Type} (p : α → Bool) : List α → Option Nat
  | [] => none
  | x :: xs => if p x then some 0 else (jsFindIndex p xs).map (· + 1)

/-- `saveToJSON(data)`.  Builds `{...data, id: Date.now(), submittedAt: new
Date().toISOString(), version: '1.0'}` (the clock readings are the `now` and
`iso` parameters), pushes it onto `getAllRegistrations()` and writes the
array back.  If the stored value parsed to a non-array, `.push` throws and
the `catch` returns `false` with no write.  The `downloadAllRegistrations()`
call and console logging do not touch the store. -/
def saveToJSON (now : Rat) (iso : String) (data : JVal) (s : Stored) : Bool × Stored :=
  let dataWithMetadata := JVal.obj (spreadFields data ++
    [("id", JVal.num now), ("submittedAt", JVal.str iso), ("version", JVal.str "1.0")])
  match getAllRegistrations s with
  | .arr regs => (true, setItem (.arr (regs ++ [dataWithMetadata])))
  | _ => (false, s)

/-- `getRegistrationById(id)`: `getAllRegistrations().find(reg => reg.id ===
id) || null`.  There is no `try/catch` here: on a non-array stored value
`.find` throws to the caller (`.error`). -/
def getRegistrationById (id : JVal) (s : Stored) : Except Unit (Option JVal) :=
  match getAllRegistrations s with
  | .arr regs => .ok (jsFind (fun reg => strictEqOpt (jGet reg "id") id) regs)
  | _ => .error ()

/-- `updateRegistration(id, updatedData)`.  Finds the first record with the
id; absent → alert and `false`.  Otherwise replaces it in place with
`{...registrations[index], ...updatedData, updatedAt: now-ISO}` and writes
the array back.  On a non-array stored value `.findIndex` throws and the
`catch` returns `false` with no write. -/
def updateRegistration (iso : String) (id : JVal) (updatedData : JVal) (s : Stored) :
    Bool × Stored :=
  match getAllRegistrations s with
  | .arr regs =>
    match jsFindIndex (fun reg => strictEqOpt (jGet reg "id") id) regs with
    | none => (false, s)
    | some i =>
      match regs[i]? with
      | some orig =>
        let merged := JVal.obj (spreadFields orig ++ spreadFields updatedData ++
          [("updatedAt", JVal.str iso)])
        (true, setItem (.arr (regs.set i merged)))
      | none => (false, s)
  | _ => (false, s)

/-- `deleteRegistration(id)`: filters out every record whose `id` strictly
equals the argument; if the length did not change, alerts and returns
`false` without writing, otherwise writes the filtered array.  On a
non-array stored value `.filter` throws and the `catch` returns `false`. -/
def deleteRegistration (id : JVal) (s : Stored) : Bool × Stored :=
  match getAllRegistrations s with
  | .arr regs =>
    let filtered := regs.filter (fun reg => !(strictEqOpt (jGet reg "id") id))
    if regs.length == filtered.length then (false, s)
    else (true, setItem (.arr filtered))
  | _ => (false, s)

/-- One key's clause in `filterRegistrations`:
`if (filters.k && reg.k !== filters.k) matches = false` leaves `matches` set
iff the filter value is falsy (or absent) or the record's field strictly
equals it. -/
def keyOkB (filters reg : JVal) (k : String) : Bool :=
  match jGet filters k with
  | some fv => !(truthy fv) || strictEqOpt (jGet reg k) fv
  | none => true

/-- One record's test in `filterRegistrations`: `matches` starts `true` and
each of the four clauses (in source order `type`, `status`, `city`, `state`)
may clear it. -/
def matchesFilters (filters reg : JVal) : Bool :=
  keyOkB filters reg "type" && keyOkB filters reg "status" &&
    keyOkB filters reg "city" && keyOkB filters reg "state"

/-- `filterRegistrations(filters)`.  No `try/catch`: a non-array stored
value makes `.filter` throw to the caller. -/
def filterRegistrations (filters : JVal) (s : Stored) : Except Unit (List JVal) :=
  match getAllRegistrations s with
  | .arr regs => .ok (regs.filter (matchesFilters filters))
  | _ => .error ()

/-- JS `Array.prototype.join(sep)` (also used for `String` templates via
`Array.prototype.toString = join(',')`). -/
def joinWith (sep : String) : List String → String
  | [] => ""
  | [x] => x
  | x :: xs => x ++ sep ++ joinWith sep xs

/-- JS number-to-string.  Exact for integers (`Date.now()` ids, the only
numbers the modelled code paths print); for non-integers JS prints a decimal
expansion while this prints `num/den` — the code only ever relies on such a
string being non-blank. -/
def ratStr (q : Rat) : String :=
  if q.den == 1 then toString q.num else toString q.num ++ "/" ++ toString q.den

mutual

/-- JS string conversion (`String(v)`, template literals, `.toString()` on
a truthy value).  Arrays convert as `join(',')` with `null` elements
becoming empty. -/
def jToString : JVal → String
  | .null => "null"
  | .bool b => cond b "true" "false"
  | .num q => ratStr q
  | .str s => s
  | .arr xs => joinWith "," (jToStringElems xs)
  | .obj _ => "[object Object]"

def jToStringElems : List JVal → List String
  | [] => []
  | .null :: rest => "" :: jToStringElems rest
  | v :: rest => jToString v :: jToStringElems rest

end

/-- Template-literal rendering of one CSV cell value, `` `"${cell}"` ``
without the quotes: an absent property renders as `undefined`. -/
def cellToString : Option JVal → String
  | none => "undefined"
  | some v => jToString v

/-- JS `v || d` where `v` may be an absent property. -/
def jsOrDefault (v : Option JVal) (d : JVal) : JVal :=
  match v with
  | some x => if truthy x then x else d
  | none => d

/-- The CSV header cells of `exportToCSV`. -/
def csvHeaders : List String :=
  ["ID", "Name", "Email", "City", "State", "Postal Code",
   "Type", "Status", "Gender", "DOB", "Submitted At"]

/-- The row built for one record in `exportToCSV`: raw cell values in
column order; `email` is the only field guarded by `|| ''`. -/
def csvRowCells (reg : JVal) : List (Option JVal) :=
  [jGet reg "id", jGet reg "name", some (jsOrDefault (jGet reg "email") (JVal.str "")),
   jGet reg "city", jGet reg "state", jGet reg "postalCode", jGet reg "type",
   jGet reg "status", jGet reg "gender", jGet reg "dob", jGet reg "submittedAt"]

/-- `` `"${cell}"` ``: every cell is wrapped in double quotes with no
escaping of embedded quotes. -/
def quoteCell (c : Option JVal) : String := "\"" ++ cellToString c ++ "\""

/-- One data row of the CSV: the quoted cells joined by commas. -/
def csvRow (reg : JVal) : String := joinWith "," ((csvRowCells reg).map quoteCell)

/-- `exportToCSV()`.  Empty collection → `''`.  Otherwise the header row and
one row per record joined by `'\n'`.  No `try/catch`: a stored non-array
object value makes `.map` throw (a stored string reaches the `.length === 0`
check first — `''` returns `''`, a non-empty string throws at `.map`). -/
def exportToCSV (s : Stored) : Except Unit String :=
  match getAllRegistrations s with
  | .arr regs =>
    if regs.length == 0 then .ok ""
    else .ok (joinWith "\n" (joinWith "," csvHeaders :: regs.map csvRow))
  | .str s2 => if s2.length == 0 then .ok "" else .error ()
  | _ => .error ()

/-- The fixed required-field list of `validateData`. -/
def requiredFields : List String :=
  ["name", "address1", "city", "state", "postalCode", "dob", "gender",
   "status", "onboardingDate", "type"]

/-- `!data[field] || data[field].toString().trim() === ''`. -/
def isMissingRequired (v : Option JVal) : Bool :=
  match v with
  | none => true
  | some x => !(truthy x) || ((jToString x).trim == "")

/-- JS `.length` as a property read: defined for arrays and strings,
`undefined` for everything else. -/
def jLength : JVal → Option Nat
  | .arr xs => some xs.length
  | .str s => some s.length
  | _ => none

/-- `!data.f || data.f.length === 0` (the multi-select field check);
`undefined === 0` is false. -/
def multiEmpty (v : Option JVal) : Bool :=
  match v with
  | none => true
  | some x => !(truthy x) || (jLength x == some 0)

/-- `/^\d{6}$/.test(String(x))`. -/
def sixDigitTest (x : JVal) : Bool :=
  let s := jToString x
  s.length == 6 && s.toList.all Char.isDigit

/-- `validateData(data)`: accumulates, in source order, one error per
blank/absent required field, one per empty/absent multi-select field, and a
postal-code-format error only when `postalCode` is truthy and fails the
six-digit test; `valid` is `errors.length === 0`. -/
def validateData (data : JVal) : Bool × List String :=
  let requiredErrors := requiredFields.filterMap (fun f =>
    if isMissingRequired (jGet data f) then some (f ++ " is required") else none)
  let multiErrors :=
    (if multiEmpty (jGet data "cityMulti") then ["At least one city must be selected"] else []) ++
    (if multiEmpty (jGet data "pinCode") then ["At least one pin code must be selected"] else []) ++
    (if multiEmpty (jGet data "areaMulti") then ["At least one area must be selected"] else []) ++
    (if multiEmpty (jGet data "languages") then ["At least one language must be selected"] else [])
  let postalErrors :=
    match jGet data "postalCode" with
    | some x => if truthy x && !(sixDigitTest x) then ["Postal code must be 6 digits"] else []
    | none => []
  let errors := requiredErrors ++ multiErrors ++ postalErrors
  (errors.length == 0, errors)

/-- The outcome of `JSON.parse(text)` on the imported file's text. -/
inductive ParseResult where
  | parseFail : ParseResult
  | parsed : JVal → ParseResult

/-- The shape dispatch of `importFromJSON`: a bare array is taken whole; an
object whose `registrations` property is (truthy and) an array contributes
that array; anything else throws `'Invalid JSON format'` (and reading
`registrations` off `null` throws too — same caught outcome). -/
def importShape (data : JVal) : Option (List JVal) :=
  match data with
  | .arr xs => some xs
  | _ =>
    match jGet data "registrations" with
    | some (.arr xs) => some xs
    | _ => none

/-- Array spread `[...v]`: arrays spread to their elements, strings to their
characters, anything else is not iterable and throws (caught by the
importer). -/
def toSpreadArray : JVal → Option (List JVal)
  | .arr xs => some xs
  | .str s => some (s.toList.map (fun c => JVal.str (String.singleton c)))
  | _ => none

/-- `importFromJSON(file)` after the awaited `file.text()` read, whose parse
outcome is the `text` parameter.  Each imported record `i` gets
`id: Date.now() + Math.random()` (clock and random draw at index `i` are
`nows i` and `rands i`) and `importedAt: iso`, appended after the existing
collection; the merged array is written back and the call returns `true`.
Any parse or shape error (or a non-spreadable existing value) is caught:
`false`, no write. -/
def importFromJSON (text : ParseResult) (nows rands : Nat → Rat) (iso : String)
    (s : Stored) : Bool × Stored :=
  match text with
  | .parseFail => (false, s)
  | .parsed data =>
    match importShape data with
    | none => (false, s)
    | some toImport =>
      match toSpreadArray (getAllRegistrations s) with
      | none => (false, s)
      | some existing =>
        let newRecs := toImport.enum.map (fun p =>
          JVal.obj (spreadFields p.2 ++
            [("id", JVal.num (nows p.1 + rands p.1)), ("importedAt", JVal.str iso)]))
        (true, setItem (.arr (existing ++ newRecs)))

/-! ### Helper lemmas about the embedded JS primitives -/

theorem getLast_append_some {k : String} {w : JVal} {b : List (String × JVal)}
    (a : List (String × JVal)) (h : getLast k b = some w) :
    getLast k (a ++ b) = some w := by
  induction a with
  | nil => simpa using h
  | cons x xs ih => cases x with
    | mk k2 v => simp [getLast, ih]

theorem getLast_append_none {k : String} {b : List (String × JVal)}
    (a : List (String × JVal)) (h : getLast k b = none) :
    getLast k (a ++ b) = getLast k a := by
  induction a with
  | nil => simpa using h
  | cons x xs ih => cases x with
    | mk k2 v => simp [getLast, ih]

theorem jsFind_eq_none {α : Type} {p : α → Bool} {l : List α}
    (h : ∀ x ∈ l, p x = false) : jsFind p l = none := by
  induction l with
  | nil => rfl
  | cons x xs ih =>
    have hx := h x (by simp)
    simp [jsFind, hx]
    exact ih (fun y hy => h y (by simp [hy]))

theorem jsFind_append_of_none {α : Type} {p : α → Bool} {a b : List α}
    (h : jsFind p a = none) : jsFind p (a ++ b) = jsFind p b := by
  induction a with
  | nil => rfl
  | cons x xs ih =>
    cases hx : p x with
    | true => simp [jsFind, hx] at h
    | false =>
      simp [jsFind, hx] at h ⊢
      exact ih h

theorem jsFindIndex_eq_none_iff {α : Type} {p : α → Bool} {l : List α} :
    jsFindIndex p l = none ↔ ∀ x ∈ l, p x = false := by
  induction l with
  | nil => simp [jsFindIndex]
  | cons x xs ih =>
    cases hx : p x with
    | true => simp [jsFindIndex, hx]
    | false => simp [jsFindIndex, hx, Option.map_eq_none', ih]

theorem jsFindIndex_getElem {α : Type} {p : α → Bool} {l : List α} {i : Nat}
    (h : jsFindIndex p l = some i) : ∃ x, l[i]? = some x ∧ p x = true := by
  induction l generalizing i with
  | nil => simp [jsFindIndex] at h
  | cons x xs ih =>
    cases hx : p x with
    | true =>
      simp [jsFindIndex, hx] at h
      exact ⟨x, by simp [← h], hx⟩
    | false =>
      simp [jsFindIndex, hx, Option.map_eq_some'] at h
      obtain ⟨j, hj, hij⟩ := h
      obtain ⟨y, hy, hpy⟩ := ih hj
      exact ⟨y, by simp [← hij, hy], hpy⟩

theorem countP_not_add_countP {α : Type} (p : α → Bool) (l : List α) :
    l.countP (fun a => !p a) + l.countP p = l.length := by
  induction l with
  | nil => rfl
  | cons x xs ih =>
    cases hx : p x <;> simp [List.countP_cons, hx] <;> omega

theorem joinWith_data_count (c : Char) (sep : String) :
    ∀ lines : List String, lines ≠ [] →
      (joinWith sep lines).data.count c =
        (lines.map (fun l => l.data.count c)).sum + sep.data.count c * (lines.length - 1)
  | [], h => absurd rfl h
  | [x], _ => by simp [joinWith]
  | x :: y :: rest, _ => by
    have ih := joinWith_data_count c sep (y :: rest) (by simp)
    show ((x ++ sep ++ joinWith sep (y :: rest)).data.count c) = _
    rw [String.data_append, String.data_append, List.count_append, List.count_append, ih]
    simp [Nat.mul_succ]
    omega

theorem quoteCell_data_count {c : Char} (hc : c ≠ '"') (cell : Option JVal) :
    (quoteCell cell).data.count c = (cellToString cell).data.count c := by
  show (("\"" ++ cellToString cell ++ "\"").data.count c) = _
  rw [String.data_append, String.data_append, List.count_append, List.count_append]
  have h1 : ("\"" : String).data.count c = 0 := by
    simp [String.data, List.count_cons, hc]
  simp [h1]

/-! ### Claims -/

/-- C5 counterexample: the stored string `'{}'` parses successfully to a
foreign (non-array) value, and `getAllRegistrations()` returns that parsed
value unchanged rather than the empty array the claim demands for every
foreign/corrupt value. -/
theorem C5_counterexample :
    getAllRegistrations (.val (.obj [])) = .obj [] ∧ JVal.obj [] ≠ JVal.arr [] :=
  ⟨rfl, fun h => JVal.noConfusion h⟩

/-- C5 (amended): `getAllRegistrations()` returns the empty array when the
stored value is absent, is the empty string, or fails to parse as JSON (the
parse failure is swallowed); a stored value that parses is returned as-is,
whatever its shape. -/
theorem C5_read_all :
    getAllRegistrations .absent = .arr [] ∧
    getAllRegistrations .emptyStr = .arr [] ∧
    getAllRegistrations .corrupt = .arr [] ∧
    ∀ v, getAllRegistrations (.val v) = v :=
  ⟨rfl, rfl, rfl, fun _ => rfl⟩

/-- C1 counterexample: the collection already holds a record with `id = 5`
and the clock assigns `id = 5` to the new record (two `create` calls in the
same millisecond do exactly this).  `create` succeeds, but `read-by-id(5)`
returns the pre-existing record, which carries neither `r`'s `name` nor the
metadata `version`, so the round-trip claim fails as stated. -/
theorem C1_counterexample :
    (saveToJSON 5 "2024-01-01T00:00:00.000Z" (.obj [("name", JVal.str "Alice")])
        (.val (.arr [JVal.obj [("id", JVal.num 5)]]))).1 = true ∧
    getRegistrationById (.num 5)
        (saveToJSON 5 "2024-01-01T00:00:00.000Z" (.obj [("name", JVal.str "Alice")])
          (.val (.arr [JVal.obj [("id", JVal.num 5)]]))).2 =
      .ok (some (JVal.obj [("id", JVal.num 5)])) ∧
    jGet (JVal.obj [("id", JVal.num 5)]) "version" = none ∧
    jGet (JVal.obj [("id", JVal.num 5)]) "name" = none ∧
    (none : Option JVal) ≠ some (JVal.str "1.0") :=
  ⟨rfl, rfl, rfl, rfl, fun h => Option.noConfusion h⟩

/-- C1 (amended): provided no record already in the collection carries the
freshly assigned id, a successful `create(r)` for an input record `r`
lacking `id`/`submittedAt`/`version`, followed by `read-by-id` at the
assigned id, returns exactly `r` plus the added metadata fields `id`,
`submittedAt` and `version = "1.0"`.  (The collection is assumed free of
`null` elements, as the stored-collection invariant guarantees; a `null`
element would make the JS `.find` callback throw.) -/
theorem C1_create_read_roundtrip
    (now : Rat) (iso : String) (dfs : List (String × JVal)) (regs : List JVal) (s : Stored)
    (hs : getAllRegistrations s = .arr regs)
    (hnn : ∀ reg ∈ regs, reg ≠ JVal.null)
    (hfresh : ∀ reg ∈ regs, strictEqOpt (jGet reg "id") (.num now) = false)
    (hid : jGet (.obj dfs) "id" = none)
    (hsub : jGet (.obj dfs) "submittedAt" = none)
    (hver : jGet (.obj dfs) "version" = none) :
    (saveToJSON now iso (.obj dfs) s).1 = true ∧
    ∃ rec,
      getRegistrationById (.num now) (saveToJSON now iso (.obj dfs) s).2 = .ok (some rec) ∧
      jGet rec "id" = some (.num now) ∧
      jGet rec "submittedAt" = some (.str iso) ∧
      jGet rec "version" = some (.str "1.0") ∧
      ∀ k, k ≠ "id" → k ≠ "submittedAt" → k ≠ "version" → jGet rec k = jGet (.obj dfs) k := by
  have hsave : saveToJSON now iso (.obj dfs) s =
      (true, setItem (.arr (regs ++ [JVal.obj (dfs ++
        [("id", JVal.num now), ("submittedAt", JVal.str iso), ("version", JVal.str "1.0")])]))) := by
    simp [saveToJSON, hs, spreadFields]
  refine ⟨by rw [hsave], ⟨JVal.obj (dfs ++
    [("id", JVal.num now), ("submittedAt", JVal.str iso), ("version", JVal.str "1.0")]),
    ?_, ?_, ?_, ?_, ?_⟩⟩
  · rw [hsave]
    show Except.ok (jsFind _ (regs ++ [_])) = _
    rw [jsFind_append_of_none (jsFind_eq_none hfresh)]
    show Except.ok (if strictEqOpt (jGet (JVal.obj (dfs ++ _)) "id") (.num now) = true
      then _ else _) = _
    have : jGet (JVal.obj (dfs ++
        [("id", JVal.num now), ("submittedAt", JVal.str iso), ("version", JVal.str "1.0")])) "id" =
        some (JVal.num now) := getLast_append_some dfs rfl
    simp [this, strictEqOpt, strictEq]
  · exact getLast_append_some dfs rfl
  · exact getLast_append_some dfs rfl
  · exact getLast_append_some dfs rfl
  · intro k hk1 hk2 hk3
    have e1 : ("id" == k) = false := beq_eq_false_iff_ne.mpr (Ne.symm hk1)
    have e2 : ("submittedAt" == k) = false := beq_eq_false_iff_ne.mpr (Ne.symm hk2)
    have e3 : ("version" == k) = false := beq_eq_false_iff_ne.mpr (Ne.symm hk3)
    have hmeta : getLast k
        [("id", JVal.num now), ("submittedAt", JVal.str iso), ("version", JVal.str "1.0")] =
        none := by
      simp [getLast, e1, e2, e3]
    exact getLast_append_none dfs hmeta

/-- Witness for `C1_create_read_roundtrip` at a concrete input. -/
theorem C1_witness :
    (saveToJSON 5 "T" (.obj [("name", JVal.str "Alice")]) Stored.absent).1 = true ∧
    ∃ rec,
      getRegistrationById (.num 5) (saveToJSON 5 "T" (.obj [("name", JVal.str "Alice")])
        Stored.absent).2 = .ok (some rec) ∧
      jGet rec "id" = some (.num 5) ∧
      jGet rec "submittedAt" = some (.str "T") ∧
      jGet rec "version" = some (.str "1.0") ∧
      ∀ k, k ≠ "id" → k ≠ "submittedAt" → k ≠ "version" →
        jGet rec k = jGet (.obj [("name", JVal.str "Alice")]) k :=
  C1_create_read_roundtrip 5 "T" [("name", JVal.str "Alice")] [] Stored.absent rfl
    (by simp) (by intro reg h; simp at h) rfl rfl rfl

/-- C2 counterexample: duplicate ids are representable (uniqueness is not
enforced), and `deleteRegistration` filters out every record with the id, so
on a collection of two records both carrying `id = 1` the delete succeeds
and the length drops from 2 to 0, not by exactly 1. -/
theorem C2_counterexample :
    deleteRegistration (.num 1)
        (.val (.arr [JVal.obj [("id", JVal.num 1)], JVal.obj [("id", JVal.num 1)]])) =
      (true, Stored.val (.arr [])) ∧
    [JVal.obj [("id", JVal.num 1)], JVal.obj [("id", JVal.num 1)]].length = 2 ∧
    ([] : List JVal).length = 0 ∧
    (0 : Nat) ≠ 2 - 1 :=
  ⟨rfl, rfl, rfl, by decide⟩

/-- C2 (amended): when some record has the id, `deleteRegistration` returns
`true` and removes every record whose id matches, so the length decreases by
the number of matching records, which is at least 1 (exactly 1 whenever the
id is unique); when no record matches it returns `false` and the store is
not written.  (No `null` elements: one would make the JS `.filter` callback
throw, caught as `false` with no write.) -/
theorem C2_delete (id : JVal) (regs : List JVal) (s : Stored)
    (hs : getAllRegistrations s = .arr regs)
    (hnn : ∀ reg ∈ regs, reg ≠ JVal.null) :
    ((∀ reg ∈ regs, strictEqOpt (jGet reg "id") id = false) →
      deleteRegistration id s = (false, s)) ∧
    ((∃ reg ∈ regs, strictEqOpt (jGet reg "id") id = true) →
      deleteRegistration id s =
        (true, setItem (.arr (regs.filter (fun reg => !(strictEqOpt (jGet reg "id") id))))) ∧
      (regs.filter (fun reg => !(strictEqOpt (jGet reg "id") id))).length +
        regs.countP (fun reg => strictEqOpt (jGet reg "id") id) = regs.length ∧
      1 ≤ regs.countP (fun reg => strictEqOpt (jGet reg "id") id)) := by
  constructor
  · intro hall
    have hfilter : regs.filter (fun reg => !(strictEqOpt (jGet reg "id") id)) = regs :=
      List.filter_eq_self.mpr (fun reg hreg => by simp [hall reg hreg])
    simp [deleteRegistration, hs, hfilter]
  · intro hex
    have hcount : 1 ≤ regs.countP (fun reg => strictEqOpt (jGet reg "id") id) :=
      List.countP_pos_iff.mpr hex
    have hlenf : (regs.filter (fun reg => !(strictEqOpt (jGet reg "id") id))).length =
        regs.countP (fun reg => !(strictEqOpt (jGet reg "id") id)) :=
      (List.countP_eq_length_filter _ _).symm
    have hsum := countP_not_add_countP (fun reg => strictEqOpt (jGet reg "id") id) regs
    have hne : (regs.length ==
        (regs.filter (fun reg => !(strictEqOpt (jGet reg "id") id))).length) = false := by
      rw [beq_eq_false_iff_ne, hlenf]
      omega
    refine ⟨?_, by omega, hcount⟩
    simp [deleteRegistration, hs, hne]

/-- Witness for `C2_delete` at a concrete input (one matching record). -/
theorem C2_witness :
    deleteRegistration (.num 1) (.val (.arr [JVal.obj [("id", JVal.num 1)]])) =
      (true, setItem (.arr ([JVal.obj [("id", JVal.num 1)]].filter
        (fun reg => !(strictEqOpt (jGet reg "id") (.num 1)))))) ∧
    ([JVal.obj [("id", JVal.num 1)]].filter
        (fun reg => !(strictEqOpt (jGet reg "id") (.num 1)))).length +
      [JVal.obj [("id", JVal.num 1)]].countP
        (fun reg => strictEqOpt (jGet reg "id") (.num 1)) =
      [JVal.obj [("id", JVal.num 1)]].length ∧
    1 ≤ [JVal.obj [("id", JVal.num 1)]].countP
        (fun reg => strictEqOpt (jGet reg "id") (.num 1)) :=
  (C2_delete (.num 1) [JVal.obj [("id", JVal.num 1)]]
      (.val (.arr [JVal.obj [("id", JVal.num 1)]])) rfl (by simp)).2
    ⟨JVal.obj [("id", JVal.num 1)], by simp, rfl⟩

/-- C3: `updateRegistration(id, updatedData)` returns `false` (no write)
when no record carries the id; when one does, it returns `true` and replaces
the first matching record with the shallow merge that takes every field
present in `updatedData`, falls back to the record's own field otherwise,
and stamps `updatedAt` with the current ISO time; every other record and the
length are unchanged.  (No `null` elements: one would make the JS
`.findIndex` callback throw, caught as `false` with no write.) -/
theorem C3_update (iso : String) (id updatedData : JVal) (pfs : List (String × JVal))
    (regs : List JVal) (s : Stored)
    (hs : getAllRegistrations s = .arr regs)
    (hnn : ∀ reg ∈ regs, reg ≠ JVal.null)
    (hpd : updatedData = .obj pfs) :
    ((∀ reg ∈ regs, strictEqOpt (jGet reg "id") id = false) →
      updateRegistration iso id updatedData s = (false, s)) ∧
    ((∃ reg ∈ regs, strictEqOpt (jGet reg "id") id = true) →
      (updateRegistration iso id updatedData s).1 = true) ∧
    (∀ i ofs, jsFindIndex (fun reg => strictEqOpt (jGet reg "id") id) regs = some i →
      regs[i]? = some (.obj ofs) →
      ∃ merged,
        updateRegistration iso id updatedData s = (true, setItem (.arr (regs.set i merged))) ∧
        jGet merged "updatedAt" = some (.str iso) ∧
        (∀ k, k ≠ "updatedAt" →
          jGet merged k =
            match jGet updatedData k with
            | some v => some v
            | none => jGet (.obj ofs) k) ∧
        (regs.set i merged).length = regs.length ∧
        (∀ j, j ≠ i → (regs.set i merged)[j]? = regs[j]?)) := by
  refine ⟨?_, ?_, ?_⟩
  · intro hall
    have hnone : jsFindIndex (fun reg => strictEqOpt (jGet reg "id") id) regs = none :=
      jsFindIndex_eq_none_iff.mpr hall
    simp [updateRegistration, hs, hnone]
  · intro hex
    cases hfi : jsFindIndex (fun reg => strictEqOpt (jGet reg "id") id) regs with
    | none =>
      obtain ⟨reg, hreg, hp⟩ := hex
      have := jsFindIndex_eq_none_iff.mp hfi reg hreg
      rw [hp] at this
      exact absurd this (by simp)
    | some i =>
      obtain ⟨x, hx, _⟩ := jsFindIndex_getElem hfi
      simp [updateRegistration, hs, hfi, hx]
  · intro i ofs hfi hgi
    refine ⟨.obj (ofs ++ pfs ++ [("updatedAt", JVal.str iso)]), ?_, ?_, ?_, ?_, ?_⟩
    · simp [updateRegistration, hs, hfi, hgi, hpd, spreadFields]
    · exact getLast_append_some (ofs ++ pfs) rfl
    · intro k hk
      have e1 : ("updatedAt" == k) = false := beq_eq_false_iff_ne.mpr (Ne.symm hk)
      have hlast : getLast k [("updatedAt", JVal.str iso)] = none := by
        simp [getLast, e1]
      show getLast k (ofs ++ pfs ++ [("updatedAt", JVal.str iso)]) = _
      rw [getLast_append_none (ofs ++ pfs) hlast]
      rw [hpd]
      show getLast k (ofs ++ pfs) = match getLast k pfs with
        | some v => some v
        | none => getLast k ofs
      cases hp : getLast k pfs with
      | some v => rw [getLast_append_some ofs hp]
      | none => rw [getLast_append_none ofs hp]
    · exact List.length_set regs i _
    · intro j hj
      exact List.getElem?_set_ne (Ne.symm hj)

/-- Witness for `C3_update` at a concrete input. -/
theorem C3_witness :
    ((∀ reg ∈ [JVal.obj [("id", JVal.num 1), ("a", JVal.str "x")]],
        strictEqOpt (jGet reg "id") (.num 1) = false) →
      updateRegistration "T2" (.num 1) (.obj [("a", JVal.str "y")])
        (.val (.arr [JVal.obj [("id", JVal.num 1), ("a", JVal.str "x")]])) =
        (false, .val (.arr [JVal.obj [("id", JVal.num 1), ("a", JVal.str "x")]]))) ∧
    ((∃ reg ∈ [JVal.obj [("id", JVal.num 1), ("a", JVal.str "x")]],
        strictEqOpt (jGet reg "id") (.num 1) = true) →
      (updateRegistration "T2" (.num 1) (.obj [("a", JVal.str "y")])
        (.val (.arr [JVal.obj [("id", JVal.num 1), ("a", JVal.str "x")]]))).1 = true) ∧
    (∀ i ofs, jsFindIndex (fun reg => strictEqOpt (jGet reg "id") (.num 1))
        [JVal.obj [("id", JVal.num 1), ("a", JVal.str "x")]] = some i →
      [JVal.obj [("id", JVal.num 1), ("a", JVal.str "x")]][i]? = some (.obj ofs) →
      ∃ merged,
        updateRegistration "T2" (.num 1) (.obj [("a", JVal.str "y")])
            (.val (.arr [JVal.obj [("id", JVal.num 1), ("a", JVal.str "x")]])) =
          (true, setItem (.arr ([JVal.obj [("id", JVal.num 1), ("a", JVal.str "x")]].set
            i merged))) ∧
        jGet merged "updatedAt" = some (.str "T2") ∧
        (∀ k, k ≠ "updatedAt" →
          jGet merged k =
            match jGet (.obj [("a", JVal.str "y")]) k with
            | some v => some v
            | none => jGet (.obj ofs) k) ∧
        ([JVal.obj [("id", JVal.num 1), ("a", JVal.str "x")]].set i merged).length =
          [JVal.obj [("id", JVal.num 1), ("a", JVal.str "x")]].length ∧
        (∀ j, j ≠ i →
          ([JVal.obj [("id", JVal.num 1), ("a", JVal.str "x")]].set i merged)[j]? =
            [JVal.obj [("id", JVal.num 1), ("a", JVal.str "x")]][j]?)) :=
  C3_update "T2" (.num 1) (.obj [("a", JVal.str "y")]) [("a", JVal.str "y")]
    [JVal.obj [("id", JVal.num 1), ("a", JVal.str "x")]]
    (.val (.arr [JVal.obj [("id", JVal.num 1), ("a", JVal.str "x")]])) rfl (by simp) rfl

/-- C4 counterexample: `updateRegistration` spreads `updatedData` over the
record, so an update whose partial data contains a `submittedAt` key
overwrites the creation-time `submittedAt`; the field is not immutable. -/
theorem C4_counterexample :
    updateRegistration "2024-06-01T00:00:00.000Z" (.num 1)
        (.obj [("submittedAt", JVal.str "1999-01-01")])
        (.val (.arr [JVal.obj [("id", JVal.num 1), ("submittedAt", JVal.str "2020-05-05")]])) =
      (true, Stored.val (.arr [JVal.obj
        [("id", JVal.num 1), ("submittedAt", JVal.str "2020-05-05"),
         ("submittedAt", JVal.str "1999-01-01"),
         ("updatedAt", JVal.str "2024-06-01T00:00:00.000Z")]])) ∧
    jGet (JVal.obj [("id", JVal.num 1), ("submittedAt", JVal.str "2020-05-05"),
        ("submittedAt", JVal.str "1999-01-01"),
        ("updatedAt", JVal.str "2024-06-01T00:00:00.000Z")]) "submittedAt" =
      some (JVal.str "1999-01-01") ∧
    JVal.str "1999-01-01" ≠ JVal.str "2020-05-05" := by
  refine ⟨rfl, rfl, ?_⟩
  intro h
  injection h with h2
  exact absurd h2 (by decide)

/-- C4 (amended): the creation-time `submittedAt` of every record survives
`updateRegistration` provided the supplied partial data does not itself
contain a `submittedAt` key; the code does not otherwise protect the field,
and a partial data carrying `submittedAt` overwrites it. -/
theorem C4_submittedAt (iso : String) (id updatedData : JVal) (pfs : List (String × JVal))
    (regs : List JVal) (s : Stored)
    (hs : getAllRegistrations s = .arr regs)
    (hnn : ∀ reg ∈ regs, reg ≠ JVal.null)
    (hpd : updatedData = .obj pfs)
    (hnosub : jGet updatedData "submittedAt" = none) :
    ∀ i ofs, jsFindIndex (fun reg => strictEqOpt (jGet reg "id") id) regs = some i →
      regs[i]? = some (.obj ofs) →
      ∃ merged,
        updateRegistration iso id updatedData s = (true, setItem (.arr (regs.set i merged))) ∧
        jGet merged "submittedAt" = jGet (.obj ofs) "submittedAt" ∧
        (∀ j, j ≠ i → (regs.set i merged)[j]? = regs[j]?) := by
  intro i ofs hfi hgi
  refine ⟨.obj (ofs ++ pfs ++ [("updatedAt", JVal.str iso)]), ?_, ?_, ?_⟩
  · simp [updateRegistration, hs, hfi, hgi, hpd, spreadFields]
  · have hlast : getLast "submittedAt" [("updatedAt", JVal.str iso)] = none := rfl
    show getLast "submittedAt" (ofs ++ pfs ++ [("updatedAt", JVal.str iso)]) = _
    rw [getLast_append_none (ofs ++ pfs) hlast]
    have hp : getLast "submittedAt" pfs = none := by
      rw [hpd] at hnosub
      exact hnosub
    rw [getLast_append_none ofs hp]
    rfl
  · intro j hj
    exact List.getElem?_set_ne (Ne.symm hj)

/-- Witness for `C4_submittedAt` at a concrete input (first record, index 0). -/
theorem C4_witness :
    ∃ merged,
      updateRegistration "T3" (.num 1) (.obj [("a", JVal.str "y")])
          (.val (.arr [JVal.obj
            [("id", JVal.num 1), ("submittedAt", JVal.str "2020-05-05")]])) =
        (true, setItem (.arr
          ([JVal.obj [("id", JVal.num 1), ("submittedAt", JVal.str "2020-05-05")]].set
            0 merged))) ∧
      jGet merged "submittedAt" =
        jGet (.obj [("id", JVal.num 1), ("submittedAt", JVal.str "2020-05-05")])
          "submittedAt" ∧
      (∀ j, j ≠ 0 →
        ([JVal.obj [("id", JVal.num 1), ("submittedAt", JVal.str "2020-05-05")]].set
          0 merged)[j]? =
          [JVal.obj [("id", JVal.num 1), ("submittedAt", JVal.str "2020-05-05")]][j]?) :=
  C4_submittedAt "T3" (.num 1) (.obj [("a", JVal.str "y")]) [("a", JVal.str "y")]
    [JVal.obj [("id", JVal.num 1), ("submittedAt", JVal.str "2020-05-05")]]
    (.val (.arr [JVal.obj [("id", JVal.num 1), ("submittedAt", JVal.str "2020-05-05")]]))
    rfl (by simp) rfl rfl 0
    [("id", JVal.num 1), ("submittedAt", JVal.str "2020-05-05")] rfl rfl

/-- C6: `importFromJSON` accepts exactly a bare array or an object with a
`registrations` array; on success each imported record is appended after the
existing collection carrying a freshly assigned id (`Date.now()` plus the
random perturbation, per element) and an `importedAt` stamp, with its other
fields intact, and the merged collection is written back; any parse or
shape failure returns `false` with the store untouched. -/
theorem C6_import (nows rands : Nat → Rat) (iso : String) (s : Stored) (existing : List JVal)
    (hs : getAllRegistrations s = .arr existing) :
    importFromJSON .parseFail nows rands iso s = (false, s) ∧
    (∀ data, importShape data = none →
      importFromJSON (.parsed data) nows rands iso s = (false, s)) ∧
    (∀ xs, importShape (.arr xs) = some xs) ∧
    (∀ v ys, jGet v "registrations" = some (.arr ys) → importShape v = some ys) ∧
    (∀ (data : JVal) (toImport : List JVal), importShape data = some toImport →
      ∃ newRecs,
        importFromJSON (.parsed data) nows rands iso s =
          (true, setItem (.arr (existing ++ newRecs))) ∧
        newRecs.length = toImport.length ∧
        ∀ i x, toImport[i]? = some x →
          ∃ rec, newRecs[i]? = some rec ∧
            jGet rec "id" = some (.num (nows i + rands i)) ∧
            jGet rec "importedAt" = some (.str iso) ∧
            (∀ fs k, x = .obj fs → k ≠ "id" → k ≠ "importedAt" →
              jGet rec k = jGet x k)) := by
  refine ⟨rfl, ?_, fun xs => rfl, ?_, ?_⟩
  · intro data h
    simp [importFromJSON, h]
  · intro v ys h
    cases v with
    | obj fs => simp [importShape, jGet] at h ⊢; simp [h]
    | arr xs => simp [jGet] at h
    | null => simp [jGet] at h
    | bool b => simp [jGet] at h
    | num q => simp [jGet] at h
    | str s2 => simp [jGet] at h
  · intro data toImport h
    refine ⟨toImport.enum.map (fun p => JVal.obj (spreadFields p.2 ++
      [("id", JVal.num (nows p.1 + rands p.1)), ("importedAt", JVal.str iso)])), ?_, ?_, ?_⟩
    · simp [importFromJSON, h, hs, toSpreadArray]
    · simp [List.enum_length]
    · intro i x hx
      have henum : toImport.enum[i]? = some (i, x) := by
        rw [List.getElem?_enum, hx]
        rfl
      refine ⟨JVal.obj (spreadFields x ++
        [("id", JVal.num (nows i + rands i)), ("importedAt", JVal.str iso)]), ?_, ?_, ?_, ?_⟩
      · rw [List.getElem?_map, henum]
        rfl
      · exact getLast_append_some (spreadFields x) rfl
      · exact getLast_append_some (spreadFields x) rfl
      · intro fs k hxo hk1 hk2
        subst hxo
        have e1 : ("id" == k) = false := beq_eq_false_iff_ne.mpr (Ne.symm hk1)
        have e2 : ("importedAt" == k) = false := beq_eq_false_iff_ne.mpr (Ne.symm hk2)
        have hmeta : getLast k
            [("id", JVal.num (nows i + rands i)), ("importedAt", JVal.str iso)] = none := by
          simp [getLast, e1, e2]
        exact getLast_append_none (spreadFields (.obj fs)) hmeta

/-- Witness for `C6_import` at a concrete input. -/
theorem C6_witness :
    importFromJSON .parseFail (fun _ => 100) (fun _ => (1 : Rat)/2) "T4"
      (.val (.arr [JVal.obj [("id", JVal.num 1)]])) =
      (false, .val (.arr [JVal.obj [("id", JVal.num 1)]])) ∧
    (∀ data, importShape data = none →
      importFromJSON (.parsed data) (fun _ => 100) (fun _ => (1 : Rat)/2) "T4"
        (.val (.arr [JVal.obj [("id", JVal.num 1)]])) =
        (false, .val (.arr [JVal.obj [("id", JVal.num 1)]]))) ∧
    (∀ xs, importShape (.arr xs) = some xs) ∧
    (∀ v ys, jGet v "registrations" = some (.arr ys) → importShape v = some ys) ∧
    (∀ (data : JVal) (toImport : List JVal), importShape data = some toImport →
      ∃ newRecs : List JVal,
        importFromJSON (.parsed data) (fun _ => 100) (fun _ => (1 : Rat)/2) "T4"
          (.val (.arr [JVal.obj [("id", JVal.num 1)]])) =
          (true, setItem (.arr ([JVal.obj [("id", JVal.num 1)]] ++ newRecs))) ∧
        newRecs.length = toImport.length ∧
        ∀ (i : Nat) (x : JVal), toImport[i]? = some x →
          ∃ rec, newRecs[i]? = some rec ∧
            jGet rec "id" = some (.num ((fun _ => (100 : Rat)) i + (fun _ => (1 : Rat)/2) i)) ∧
            jGet rec "importedAt" = some (.str "T4") ∧
            (∀ fs k, x = .obj fs → k ≠ "id" → k ≠ "importedAt" →
              jGet rec k = jGet x k)) :=
  C6_import (fun _ => 100) (fun _ => (1 : Rat)/2) "T4"
    (.val (.arr [JVal.obj [("id", JVal.num 1)]])) [JVal.obj [("id", JVal.num 1)]] rfl

/-- C7: `validateData({})` is invalid with exactly one error per required
field (10) and one per multi-select field (4) — 14 entries, at least 10 —
and no postal-code-format error (`postalCode` being absent is falsy, so the
format test never runs); in general `valid` is true iff the accumulated
error list is empty. -/
theorem C7_validate :
    validateData (.obj []) = (false,
      ["name is required", "address1 is required", "city is required", "state is required",
       "postalCode is required", "dob is required", "gender is required", "status is required",
       "onboardingDate is required", "type is required",
       "At least one city must be selected", "At least one pin code must be selected",
       "At least one area must be selected", "At least one language must be selected"]) ∧
    (validateData (.obj [])).2.length = 14 ∧
    10 ≤ (validateData (.obj [])).2.length ∧
    "Postal code must be 6 digits" ∉ (validateData (.obj [])).2 ∧
    ∀ dfs : List (String × JVal),
      ((validateData (.obj dfs)).1 = true ↔ (validateData (.obj dfs)).2 = []) := by
  refine ⟨rfl, rfl, by decide, by decide, ?_⟩
  intro dfs
  rw [show (validateData (.obj dfs)).1 =
    ((validateData (.obj dfs)).2.length == 0) from rfl]
  simp [List.length_eq_zero]

/-- C9 counterexample: the criteria key `type` is present with the (falsy)
empty-string value, yet the record whose `type` is `"Agency"` is returned:
a present-but-falsy criteria key imposes no constraint, contradicting the
claim that every present key must match. -/
theorem C9_counterexample :
    filterRegistrations (.obj [("type", JVal.str "")])
        (.val (.arr [JVal.obj [("id", JVal.num 1), ("type", JVal.str "Agency")]])) =
      .ok [JVal.obj [("id", JVal.num 1), ("type", JVal.str "Agency")]] ∧
    jGet (JVal.obj [("id", JVal.num 1), ("type", JVal.str "Agency")]) "type" =
      some (JVal.str "Agency") ∧
    JVal.str "Agency" ≠ JVal.str "" := by
  refine ⟨rfl, rfl, ?_⟩
  intro h
  injection h with h2
  exact absurd h2 (by decide)

/-- The amended claim's per-key requirement, written from its words: a
criteria key present with a truthy value must strictly equal the record's
corresponding field; an absent or falsy-valued key imposes no constraint. -/
def specKeyOk (filters reg : JVal) (k : String) : Prop :=
  ∀ fv, jGet filters k = some fv → truthy fv = true → strictEqOpt (jGet reg k) fv = true

theorem keyOkB_iff (filters reg : JVal) (k : String) :
    keyOkB filters reg k = true ↔ specKeyOk filters reg k := by
  unfold keyOkB specKeyOk
  cases hf : jGet filters k with
  | none => simp
  | some fv =>
    cases ht : truthy fv with
    | false => simp [ht]
    | true => simp [ht]

/-- C9 (amended): `filterRegistrations(criteria)` returns exactly the
records passing all four clauses, where a criteria key among
`{type, status, city, state}` that is present with a truthy value must
strictly (case-sensitively) equal the record's field, and a key that is
absent — or present with a falsy value such as the empty string — imposes no
constraint.  (The criteria is an object and the collection has no `null`
elements; a `null` record would make the JS callback throw on a truthy
criteria key.) -/
theorem C9_filter (ffs : List (String × JVal)) (regs : List JVal) (s : Stored)
    (hs : getAllRegistrations s = .arr regs)
    (hnn : ∀ reg ∈ regs, reg ≠ JVal.null) :
    filterRegistrations (.obj ffs) s = .ok (regs.filter (matchesFilters (.obj ffs))) ∧
    (∀ reg, reg ∈ regs.filter (matchesFilters (.obj ffs)) ↔
      reg ∈ regs ∧ matchesFilters (.obj ffs) reg = true) ∧
    (∀ reg, matchesFilters (.obj ffs) reg = true ↔
      (specKeyOk (.obj ffs) reg "type" ∧ specKeyOk (.obj ffs) reg "status" ∧
        specKeyOk (.obj ffs) reg "city" ∧ specKeyOk (.obj ffs) reg "state")) := by
  refine ⟨by simp [filterRegistrations, hs], ?_, ?_⟩
  · intro reg
    exact List.mem_filter
  · intro reg
    rw [show matchesFilters (.obj ffs) reg =
      (keyOkB (.obj ffs) reg "type" && keyOkB (.obj ffs) reg "status" &&
        keyOkB (.obj ffs) reg "city" && keyOkB (.obj ffs) reg "state") from rfl]
    simp [Bool.and_eq_true, keyOkB_iff, and_assoc]

/-- Witness for `C9_filter` at a concrete input. -/
theorem C9_witness :
    filterRegistrations (.obj [("type", JVal.str "Agency")])
        (.val (.arr [JVal.obj [("type", JVal.str "Agency")]])) =
      .ok ([JVal.obj [("type", JVal.str "Agency")]].filter
        (matchesFilters (.obj [("type", JVal.str "Agency")]))) ∧
    (∀ reg, reg ∈ [JVal.obj [("type", JVal.str "Agency")]].filter
        (matchesFilters (.obj [("type", JVal.str "Agency")])) ↔
      reg ∈ [JVal.obj [("type", JVal.str "Agency")]] ∧
        matchesFilters (.obj [("type", JVal.str "Agency")]) reg = true) ∧
    (∀ reg, matchesFilters (.obj [("type", JVal.str "Agency")]) reg = true ↔
      (specKeyOk (.obj [("type", JVal.str "Agency")]) reg "type" ∧
        specKeyOk (.obj [("type", JVal.str "Agency")]) reg "status" ∧
        specKeyOk (.obj [("type", JVal.str "Agency")]) reg "city" ∧
        specKeyOk (.obj [("type", JVal.str "Agency")]) reg "state")) :=
  C9_filter [("type", JVal.str "Agency")] [JVal.obj [("type", JVal.str "Agency")]]
    (.val (.arr [JVal.obj [("type", JVal.str "Agency")]])) rfl (by simp)

/-- C10: the CSV Email column is filled from an `email` field no other part
of the module ever writes; `reg.email || ''` substitutes the empty string
when the field is absent, so such a record's Email cell renders as the
quoted empty value `""`.  (No `null` elements: one would make the JS `.map`
callback throw.) -/
theorem C10_email_column (regs : List JVal) (reg : JVal) (s : Stored)
    (hs : getAllRegistrations s = .arr regs)
    (hnn : ∀ r ∈ regs, r ≠ JVal.null)
    (hmem : reg ∈ regs)
    (hnoemail : jGet reg "email" = none) :
    exportToCSV s = .ok (joinWith "\n" (joinWith "," csvHeaders :: regs.map csvRow)) ∧
    csvHeaders[2]? = some "Email" ∧
    (csvRowCells reg)[2]? = some (some (JVal.str "")) ∧
    ((csvRowCells reg).map quoteCell)[2]? = some "\"\"" ∧
    csvRow reg = joinWith "," ((csvRowCells reg).map quoteCell) := by
  have hne : regs ≠ [] := List.ne_nil_of_mem hmem
  have hlen : (regs.length == 0) = false := by
    rw [beq_eq_false_iff_ne]
    simpa using hne
  have hcell : (csvRowCells reg)[2]? = some (some (JVal.str "")) := by
    simp [csvRowCells, hnoemail, jsOrDefault]
  refine ⟨by simp [exportToCSV, hs, hlen], rfl, hcell, ?_, rfl⟩
  rw [List.getElem?_map, hcell]
  rfl

/-- Witness for `C10_email_column` at a concrete input. -/
theorem C10_witness :
    exportToCSV (.val (.arr [JVal.obj [("id", JVal.num 7)]])) =
      .ok (joinWith "\n" (joinWith "," csvHeaders ::
        [JVal.obj [("id", JVal.num 7)]].map csvRow)) ∧
    csvHeaders[2]? = some "Email" ∧
    (csvRowCells (JVal.obj [("id", JVal.num 7)]))[2]? = some (some (JVal.str "")) ∧
    ((csvRowCells (JVal.obj [("id", JVal.num 7)])).map quoteCell)[2]? = some "\"\"" ∧
    csvRow (JVal.obj [("id", JVal.num 7)]) =
      joinWith "," ((csvRowCells (JVal.obj [("id", JVal.num 7)])).map quoteCell) :=
  C10_email_column [JVal.obj [("id", JVal.num 7)]] (JVal.obj [("id", JVal.num 7)])
    (.val (.arr [JVal.obj [("id", JVal.num 7)]])) rfl (by simp) (by simp) rfl

/-- C8 counterexample: a collection of one record whose `name` contains an
embedded newline (nothing in the module forbids it) exports to a string with
two newline characters — three lines, not the claimed N+1 = 2. -/
theorem C8_counterexample :
    exportToCSV (.val (.arr [JVal.obj
      [("id", JVal.num 1), ("name", JVal.str "a\nb"), ("email", JVal.str "e"),
       ("city", JVal.str "c"), ("state", JVal.str "s"), ("postalCode", JVal.str "560001"),
       ("type", JVal.str "Individual"), ("status", JVal.str "Active"),
       ("gender", JVal.str "F"), ("dob", JVal.str "2000-01-01"),
       ("submittedAt", JVal.str "2024-01-01T00:00:00Z")]])) =
      .ok ("ID,Name,Email,City,State,Postal Code,Type,Status,Gender,DOB,Submitted At\n\"1\",\"a\nb\",\"e\",\"c\",\"s\",\"560001\",\"Individual\",\"Active\",\"F\",\"2000-01-01\",\"2024-01-01T00:00:00Z\"") ∧
    ("ID,Name,Email,City,State,Postal Code,Type,Status,Gender,DOB,Submitted At\n\"1\",\"a\nb\",\"e\",\"c\",\"s\",\"560001\",\"Individual\",\"Active\",\"F\",\"2000-01-01\",\"2024-01-01T00:00:00Z\"" : String).data.count '\n' = 2 ∧
    (2 : Nat) ≠ 1 := by
  refine ⟨rfl, ?_, by decide⟩
  decide

/-- C8 (amended): provided no rendered field value contains a newline,
`exportToCSV()` on N ≥ 1 records returns the header row (exactly the claimed
column list) followed by one row per record, joined by `'\n'` — a string
with exactly N newline characters, i.e. exactly N+1 lines — in which every
field value is double-quote-wrapped with no escaping of embedded quotes; the
empty collection yields the empty string.  A field value containing a
newline produces extra lines.  (No `null` elements: one would make the JS
`.map` callback throw.) -/
theorem C8_export_csv (regs : List JVal) (s : Stored)
    (hs : getAllRegistrations s = .arr regs)
    (hnn : ∀ reg ∈ regs, reg ≠ JVal.null)
    (hclean : ∀ reg ∈ regs, ∀ c ∈ csvRowCells reg, (cellToString c).data.count '\n' = 0) :
    (regs = [] → exportToCSV s = .ok "") ∧
    (regs ≠ [] →
      exportToCSV s = .ok (joinWith "\n" (joinWith "," csvHeaders :: regs.map csvRow)) ∧
      joinWith "," csvHeaders =
        "ID,Name,Email,City,State,Postal Code,Type,Status,Gender,DOB,Submitted At" ∧
      (joinWith "," csvHeaders :: regs.map csvRow).length = regs.length + 1 ∧
      (joinWith "\n" (joinWith "," csvHeaders :: regs.map csvRow)).data.count '\n' =
        regs.length ∧
      (∀ reg ∈ regs, csvRow reg = joinWith "," ((csvRowCells reg).map quoteCell))) := by
  constructor
  · intro h
    subst h
    simp [exportToCSV, hs]
  · intro hne
    have hlen : (regs.length == 0) = false := by
      rw [beq_eq_false_iff_ne]
      simpa using hne
    have hrow : ∀ reg ∈ regs, (csvRow reg).data.count '\n' = 0 := by
      intro reg hreg
      have hcells : ((csvRowCells reg).map quoteCell) ≠ [] := by
        simp [csvRowCells]
      rw [show csvRow reg = joinWith "," ((csvRowCells reg).map quoteCell) from rfl]
      rw [joinWith_data_count '\n' "," _ hcells]
      have hsep : ("," : String).data.count '\n' = 0 := by decide
      rw [hsep]
      simp only [Nat.zero_mul, Nat.add_zero]
      apply List.sum_eq_zero
      intro n hn
      simp only [List.map_map, List.mem_map] at hn
      obtain ⟨c, hc, hcn⟩ := hn
      rw [← hcn]
      show (quoteCell c).data.count '\n' = 0
      rw [quoteCell_data_count (by decide) c]
      exact hclean reg hreg c hc
    have hhead : (joinWith "," csvHeaders).data.count '\n' = 0 := by decide
    have hcount : (joinWith "\n" (joinWith "," csvHeaders :: regs.map csvRow)).data.count '\n' =
        regs.length := by
      rw [joinWith_data_count '\n' "\n" _ (by simp)]
      have hsep : ("\n" : String).data.count '\n' = 1 := by decide
      rw [hsep]
      have hsum : ((joinWith "," csvHeaders :: regs.map csvRow).map
          (fun l => l.data.count '\n')).sum = 0 := by
        apply List.sum_eq_zero
        intro n hn
        simp only [List.map_cons, List.mem_cons, List.map_map, List.mem_map] at hn
        rcases hn with h1 | ⟨reg, hreg, hregn⟩
        · rw [h1]
          exact hhead
        · rw [← hregn]
          exact hrow reg hreg
      rw [hsum]
      simp [List.length_map]
    refine ⟨by simp [exportToCSV, hs, hlen], by decide, by simp [List.length_map], hcount,
      fun reg _ => rfl⟩

/-- Witness for `C8_export_csv` at a concrete one-record input. -/
theorem C8_witness :
    (([JVal.obj [("id", JVal.num 1), ("name", JVal.str "Alice")]] : List JVal) = [] →
      exportToCSV (.val (.arr [JVal.obj [("id", JVal.num 1), ("name", JVal.str "Alice")]])) =
        .ok "") ∧
    (([JVal.obj [("id", JVal.num 1), ("name", JVal.str "Alice")]] : List JVal) ≠ [] →
      exportToCSV (.val (.arr [JVal.obj [("id", JVal.num 1), ("name", JVal.str "Alice")]])) =
        .ok (joinWith "\n" (joinWith "," csvHeaders ::
          [JVal.obj [("id", JVal.num 1), ("name", JVal.str "Alice")]].map csvRow)) ∧
      joinWith "," csvHeaders =
        "ID,Name,Email,City,State,Postal Code,Type,Status,Gender,DOB,Submitted At" ∧
      (joinWith "," csvHeaders ::
        [JVal.obj [("id", JVal.num 1), ("name", JVal.str "Alice")]].map csvRow).length =
        [JVal.obj [("id", JVal.num 1), ("name", JVal.str "Alice")]].length + 1 ∧
      (joinWith "\n" (joinWith "," csvHeaders ::
        [JVal.obj [("id", JVal.num 1), ("name", JVal.str "Alice")]].map csvRow)).data.count
          '\n' =
        [JVal.obj [("id", JVal.num 1), ("name", JVal.str "Alice")]].length ∧
      (∀ reg ∈ [JVal.obj [("id", JVal.num 1), ("name", JVal.str "Alice")]],
        csvRow reg = joinWith "," ((csvRowCells reg).map quoteCell))) :=
  C8_export_csv [JVal.obj [("id", JVal.num 1), ("name", JVal.str "Alice")]]
    (.val (.arr [JVal.obj [("id", JVal.num 1), ("name", JVal.str "Alice")]])) rfl
    (by simp) (by decide)
